import Mathlib

/-!
Verification of the core of `src/app.py` (Pdf-Unlock-Tool): a shallow
embedding in Lean 4 of the validator, the unlock worker, the batch
coordinator, the archive builder and the artifact registry + reaper,
together with proofs of the spec's claims about them.

External effects (`tempfile.mkdtemp`, `PyPDF2` reading, file writes,
`os.remove` outcomes, wall-clock time) are supplied as explicit
environment values; the filesystem and the `temp_files` registry are
explicit state.  Every function below mirrors the corresponding Python
function line by line.
-/

namespace PdfUnlock

/-! ### Global configuration (src/app.py lines 42-45) -/

def MAX_FILE_SIZE_MB : Nat := 100

def MAX_CONCURRENT_TASKS : Nat := 10

def TEMP_FILES_TTL : Nat := 3600

def SUPPORTED_EXTENSIONS : List String := [".pdf"]

/-! ### String helpers modelling `os.path` and `str.lower`

`afterLast c l` is the list of characters strictly after the last
occurrence of `c` in `l` (all of `l` when `c` does not occur), which is
the building block of both `os.path.basename` and `os.path.splitext`. -/

def afterLast (c : Char) (l : List Char) : List Char :=
  (l.reverse.takeWhile (fun x => x ≠ c)).reverse

/-- `os.path.basename`: everything after the last path separator. -/
def basename (p : String) : String :=
  String.mk (afterLast '/' p.data)

/-- The extension component of `os.path.splitext p` (with its leading
dot; `""` when there is none).  Mirrors `posixpath.splitext`: the last
dot must lie inside the basename and the basename part before it must
contain a non-dot character (so `".bashrc"` has no extension). -/
def splitextExt (p : String) : String :=
  let b := afterLast '/' p.data
  if b.contains '.' then
    let pre := ((b.reverse.dropWhile (fun x => x ≠ '.')).drop 1).reverse
    if pre.any (fun x => x ≠ '.') then
      String.mk ('.' :: afterLast '.' b)
    else ""
  else ""

/-- `str.lower` (ASCII, which covers every extension compared here). -/
def strLower (s : String) : String :=
  String.mk (s.data.map Char.toLower)

/-- String prefix test (`q.startswith(p)` / path-under-directory test),
on the underlying character lists. -/
def strIsPrefixOf (p q : String) : Bool :=
  p.data.isPrefixOf q.data

/-- Equality of `Except` values is decidable when both components' is
(used to evaluate concrete runs of the fallible operations below). -/
instance {ε α : Type} [DecidableEq ε] [DecidableEq α] :
    DecidableEq (Except ε α) := fun a b =>
  match a, b with
  | .error x, .error y =>
    if h : x = y then isTrue (by rw [h])
    else isFalse (fun hc => h (Except.error.inj hc))
  | .error _, .ok _ => isFalse (fun hc => Except.noConfusion hc)
  | .ok _, .error _ => isFalse (fun hc => Except.noConfusion hc)
  | .ok x, .ok y =>
    if h : x = y then isTrue (by rw [h])
    else isFalse (fun hc => h (Except.ok.inj hc))

/-! ### Upload candidates

A gradio file object as seen by `validate_file` / the worker:
`hasName` models `hasattr(file_obj, "name")`; `name` is the `.name`
attribute; `getsize` is the outcome of `os.path.getsize(name)`
(`.error e` when the call raises, e.g. the path does not resolve). -/

structure Candidate where
  hasName : Bool
  name : String
  getsize : Except String Nat
deriving Repr, DecidableEq

/-! ### Validator (src/app.py lines 73-96, `validate_file`) -/

def validate_file (f : Candidate) : Bool × String :=
  if !f.hasName then (false, "无效的文件对象")
  else
    match f.getsize with
    | .error e => (false, "文件验证失败: " ++ e)
    | .ok filesize =>
      let ext := strLower (splitextExt f.name)
      if !(SUPPORTED_EXTENSIONS.contains ext) then
        (false, "不支持的文件类型: " ++ ext)
      else if filesize == 0 then (false, "文件为空")
      else if MAX_FILE_SIZE_MB * 1024 * 1024 < filesize then
        (false, "文件大小超过限制 (" ++ toString MAX_FILE_SIZE_MB ++ "MB)")
      else (true, "验证通过")

/-! ### Filesystem and registry state

`files`/`dirs` are the regular files and directories present on disk
(set semantics: removal deletes every listed occurrence).  `reg` models
the global `temp_files` dict (path → creation time, insertion guarded
by `temp_files_lock`); Python dict keys are unique, which proofs track
through `(reg.map Prod.fst).Nodup` hypotheses. -/

structure SysState where
  files : List String
  dirs : List String
  reg : List (String × Nat)
deriving Repr, DecidableEq

/-- `os.path.exists`: true for files and for directories. -/
def pathExists (st : SysState) (p : String) : Bool :=
  st.files.contains p || st.dirs.contains p

/-- `temp_files.pop(path, None)`: drop every entry with the given key. -/
def eraseReg (reg : List (String × Nat)) (p : String) : List (String × Nat) :=
  reg.filter (fun e => e.1 ≠ p)

/-- `temp_files[path] = t`: dict assignment (overwrite or add). -/
def insertReg (reg : List (String × Nat)) (p : String) (t : Nat) :
    List (String × Nat) :=
  (p, t) :: eraseReg reg p

/-! ### Unlock worker (src/app.py lines 99-135, `remove_pdf_restrictions`)

The environment carries the outcome of every external call the worker
makes: `mkdtempResult` for `tempfile.mkdtemp()` (a fresh directory path
or an exception), `pdfPages` for `PdfReader(file_obj)` / page iteration
(the page count or an exception), `writeOk` for `writer.write(...)`
into the already-opened output file, `rmtreeOk` for
`shutil.rmtree(temp_dir)` in the `except` branch (line 134, which has
no surrounding handler: when it raises, the exception propagates out of
the function, so the worker's result type is `Except`), and `now` for
`time.time()` at registration.  Per-page progress callbacks are not
observable by any claim and are elided. -/

structure UnlockEnv where
  mkdtempResult : Except String String
  pdfPages : Except String Nat
  writeOk : Except String Unit
  rmtreeOk : Except String Unit
  now : Nat

/-- The effect of a completed `shutil.rmtree(td)`: delete the directory,
everything below it, and every file whose path lies under it. -/
def rmtree (td : String) (st : SysState) : SysState :=
  { st with
    files := st.files.filter (fun p => !(strIsPrefixOf (td ++ "/") p)),
    dirs := st.dirs.filter (fun d => d ≠ td ∧ !(strIsPrefixOf (td ++ "/") d)) }

/-- The worker's `except` branch (lines 130-135): removal of the staging
directory, guarded by `if temp_dir and os.path.exists(temp_dir)`;
`tdOpt = none` models `temp_dir is None` (mkdtemp itself raised).
`rm` is the outcome of `shutil.rmtree` when it is reached: by default
(`ignore_errors=False`) a failing rmtree raises, and with no handler
around it the exception replaces the `(None, message)` return. -/
def unlockFail (rm : Except String Unit) (tdOpt : Option String)
    (e : String) (st : SysState) :
    Except String (SysState × Option String × String) :=
  match tdOpt with
  | none => .ok (st, none, "❌ 处理失败: " ++ e)
  | some td =>
    if td ≠ "" && pathExists st td then
      match rm with
      | .error e2 => .error e2
      | .ok _ => .ok (rmtree td st, none, "❌ 处理失败: " ++ e)
    else .ok (st, none, "❌ 处理失败: " ++ e)

def remove_pdf_restrictions (env : UnlockEnv) (f : Candidate) (st : SysState) :
    Except String (SysState × Option String × String) :=
  match env.mkdtempResult with
  | .error e => unlockFail env.rmtreeOk none e st
  | .ok td =>
    let st1 := { st with dirs := td :: st.dirs }
    if !f.hasName then
      -- `file_obj.name` raises AttributeError (message modelled below)
      unlockFail env.rmtreeOk (some td) "object has no attribute name" st1
    else
      let filename := basename f.name
      let output_path := td ++ "/" ++ filename ++ "_unlocked"
      match env.pdfPages with
      | .error e => unlockFail env.rmtreeOk (some td) e st1
      | .ok _pages =>
        -- `open(output_path, "wb")` creates the file before writing
        let st2 := { st1 with files := output_path :: st1.files }
        match env.writeOk with
        | .error e => unlockFail env.rmtreeOk (some td) e st2
        | .ok _ =>
          let st3 := { st2 with reg := insertReg st2.reg output_path env.now }
          .ok (st3, some output_path, "✅ 成功解锁文件: " ++ filename)

/-! ### Reaper (src/app.py lines 52-70, `cleanup_temp_files`)

One iteration of the `while True` loop (one sweep), holding
`temp_files_lock`.  `removeFails p = true` means `os.remove(p)` raises
(e.g. a permission error); note that in the source the
`temp_files.pop(path, None)` sits inside the `try` *after*
`os.remove`, so a raising delete skips the pop. -/

structure ReapEnv where
  now : Nat
  removeFails : String → Bool

/-- Is a registry entry expired at `now`?
(`current_time - created_time > TEMP_FILES_TTL`). -/
def isExpired (env : ReapEnv) (e : String × Nat) : Bool :=
  (TEMP_FILES_TTL : Int) < (env.now : Int) - (e.2 : Int)

/-- The body of the per-entry `try/except` (lines 62-69). -/
def reapOne (env : ReapEnv) (st : SysState) (path : String) : SysState :=
  if pathExists st path then
    if env.removeFails path then
      st  -- os.remove raised: the except branch only logs; no pop
    else
      { st with files := st.files.filter (fun p => p ≠ path),
                reg := eraseReg st.reg path }
  else
    { st with reg := eraseReg st.reg path }

/-- One reaper sweep: snapshot the expired entries, then process each. -/
def cleanupSweep (env : ReapEnv) (st : SysState) : SysState :=
  (st.reg.filter (isExpired env)).foldl (fun s e => reapOne env s e.1) st

/-! ### Archive builder (src/app.py lines 191-218, `create_zip_file`)

`timestamp` is `datetime.now().strftime("%Y%m%d_%H%M%S")`, `tmpdir` is
`tempfile.gettempdir()`, `openOk` the outcome of constructing
`zipfile.ZipFile(zip_path, "w", ...)` (which creates the file on disk),
`writesOk` the outcome of the `zipf.write` loop, `now` is `time.time()`
at registration. -/

structure ZipEnv where
  timestamp : String
  tmpdir : String
  openOk : Except String Unit
  writesOk : Except String Unit
  now : Nat

/-- The `zipf.write` loop (lines 204-208): one entry, under its base
name, per input that exists on disk at archive-build time. -/
def zipWriteLoop (st : SysState) : List String → List String
  | [] => []
  | f :: rest =>
    if pathExists st f then basename f :: zipWriteLoop st rest
    else zipWriteLoop st rest

/-- Result of `create_zip_file`: post state, returned path, message, and
(on success) the entry names of the archive written to disk. -/
structure ZipResult where
  st : SysState
  path : Option String
  msg : String
  entries : Option (List String)
deriving Repr

def create_zip_file (env : ZipEnv) (inputs : List String) (st : SysState) :
    ZipResult :=
  if inputs.isEmpty then ⟨st, none, "没有可下载的文件", none⟩
  else
    let zip_filename := env.timestamp ++ "_unlocked_pdfs.zip"
    let zip_path := env.tmpdir ++ "/" ++ zip_filename
    match env.openOk with
    | .error e => ⟨st, none, "❌ 创建ZIP文件失败: " ++ e, none⟩
    | .ok _ =>
      let st1 := { st with files := zip_path :: st.files }
      match env.writesOk with
      | .error e => ⟨st1, none, "❌ 创建ZIP文件失败: " ++ e, none⟩
      | .ok _ =>
        let st2 := { st1 with reg := insertReg st1.reg zip_path env.now }
        ⟨st2, some zip_path, "✅ 已创建ZIP文件: " ++ zip_filename,
          some (zipWriteLoop st1 inputs)⟩

/-! ### Batch coordinator (src/app.py lines 138-188, `process_multiple_files`)

A submitted task is a candidate together with the value `future.result()`
produces for it: `.ok (output_path, message)` for a worker return,
`.error e` when the callable raised and `future.result()` re-raises
(caught at lines 178-180).  The coordinator is parametric in the
completion order delivered by `concurrent.futures.as_completed`: the
theorems quantify over every permutation of the submitted tasks. -/

structure TaskSpec where
  file : Candidate
  result : Except String (Option String × String)
deriving Repr, DecidableEq

/-- The submission loop (lines 153-162).  For each candidate in order:
validate; a passing candidate is submitted; a rejected candidate is
logged with `logger.warning(f"❌ {os.path.basename(file.name)}: {msg}")`
— and when the rejection is the missing-`.name` case, that very
`file.name` raises AttributeError, aborting the loop (and the
coordinator) on the spot; otherwise `fail_count` is incremented.
Result: (tasks actually submitted, `fail_count`, the raised exception
if any). -/
def submitLoop : List TaskSpec → List TaskSpec × Nat × Option String
  | [] => ([], 0, none)
  | t :: rest =>
    if (validate_file t.file).1 then
      let r := submitLoop rest
      (t :: r.1, r.2.1, r.2.2)
    else if !t.file.hasName then
      ([], 0, some "object has no attribute name")
    else
      let r := submitLoop rest
      (r.1, r.2.1 + 1, r.2.2)

/-- The tasks the coordinator actually submits to the pool. -/
def scheduledTasks (files : List TaskSpec) : List TaskSpec :=
  (submitLoop files).1

/-- `fail_count` after the submission loop. -/
def rejectedCount (files : List TaskSpec) : Nat :=
  (submitLoop files).2.1

/-- The exception (if any) the submission loop raises. -/
def submitError (files : List TaskSpec) : Option String :=
  (submitLoop files).2.2

/-- Mutable state of the result-collection loop (lines 143-183). -/
structure BatchAcc where
  success_files : List String
  success_count : Nat
  fail_count : Nat
  completed_tasks : Nat
  progressCalls : List (Nat × Nat)
deriving Repr, DecidableEq

/-- One iteration of the `as_completed` loop (lines 168-183).
`total` is `total_tasks = len(future_to_file)`; each iteration ends with
`progress(completed_tasks / total_tasks)`, recorded as the pair
`(completed_tasks, total_tasks)`. -/
def collectOne (total : Nat) (acc : BatchAcc) (t : TaskSpec) : BatchAcc :=
  let acc1 :=
    match t.result with
    | .ok (some p, _msg) =>
      if p ≠ "" then  -- Python truthiness of `output_path`
        { acc with success_files := acc.success_files ++ [p],
                   success_count := acc.success_count + 1 }
      else { acc with fail_count := acc.fail_count + 1 }
    | .ok (none, _msg) => { acc with fail_count := acc.fail_count + 1 }
    | .error _e => { acc with fail_count := acc.fail_count + 1 }
  { acc1 with completed_tasks := acc1.completed_tasks + 1,
              progressCalls :=
                acc1.progressCalls ++ [(acc1.completed_tasks + 1, total)] }

/-- `process_multiple_files`, parametric in `completion`, the submitted
tasks in the order `as_completed` yields them.  The returned value of
the Python function is the `success_files` field.  When the submission
loop raises (AttributeError while logging a nameless candidate's
rejection), nothing is caught: the `with ThreadPoolExecutor` block waits
for already-submitted tasks and re-raises, so the coordinator returns
nothing (`.error`). -/
def process_multiple_files (files completion : List TaskSpec) :
    Except String BatchAcc :=
  if files.isEmpty then .ok ⟨[], 0, 0, 0, []⟩
  else
    match submitError files with
    | some e => .error e
    | none =>
      .ok (completion.foldl (collectOne (scheduledTasks files).length)
        ⟨[], 0, rejectedCount files, 0, []⟩)

/-! ### Worker pool semantics (src/app.py line 149)

`ThreadPoolExecutor(max_workers=MAX_CONCURRENT_TASKS)`: a step relation
on pool states in which a queued task may start only while fewer than
`max` tasks are running, and a running task may finish.  `poolInit n` is
the pool right after `n` tasks have been submitted. -/

structure PoolState where
  queued : Nat
  running : Nat
  finished : Nat
deriving Repr, DecidableEq

inductive PoolStep (max : Nat) : PoolState → PoolState → Prop
  | start (q r f : Nat) (hr : r < max) :
      PoolStep max ⟨q + 1, r, f⟩ ⟨q, r + 1, f⟩
  | finish (q r f : Nat) :
      PoolStep max ⟨q, r + 1, f⟩ ⟨q, r, f + 1⟩

def poolInit (n : Nat) : PoolState := ⟨n, 0, 0⟩

/-- Pool states reachable from `s` by the executor's scheduling steps. -/
def PoolReachable (max : Nat) (s s' : PoolState) : Prop :=
  Relation.ReflTransGen (PoolStep max) s s'

/-! ## Theorems -/

/-- C3: `validate_file` performs its checks in the stated order,
short-circuiting on the first failure with the corresponding stable
reason string: (1) a candidate without a `.name` attribute is rejected
as an invalid file object ("无效的文件对象"); then, for a candidate whose
size is readable, (2) an extension (lower-cased) outside
`SUPPORTED_EXTENSIONS = {.pdf}` is rejected as an unsupported file type
("不支持的文件类型: <ext>"), (3) size 0 is rejected as empty ("文件为空"),
(4) a size above `MAX_FILE_SIZE_MB` MB is rejected with the size-limit
reason ("文件大小超过限制 (100MB)"), and all other candidates are
accepted. -/
theorem validate_file_check_order (f : Candidate) :
    (f.hasName = false → validate_file f = (false, "无效的文件对象")) ∧
    (∀ n : Nat, f.hasName = true → f.getsize = Except.ok n →
      (SUPPORTED_EXTENSIONS.contains (strLower (splitextExt f.name)) = false →
        validate_file f =
          (false, "不支持的文件类型: " ++ strLower (splitextExt f.name))) ∧
      (SUPPORTED_EXTENSIONS.contains (strLower (splitextExt f.name)) = true →
        n = 0 → validate_file f = (false, "文件为空")) ∧
      (SUPPORTED_EXTENSIONS.contains (strLower (splitextExt f.name)) = true →
        n ≠ 0 → MAX_FILE_SIZE_MB * 1024 * 1024 < n →
        validate_file f =
          (false, "文件大小超过限制 (" ++ toString MAX_FILE_SIZE_MB ++ "MB)")) ∧
      (SUPPORTED_EXTENSIONS.contains (strLower (splitextExt f.name)) = true →
        n ≠ 0 → n ≤ MAX_FILE_SIZE_MB * 1024 * 1024 →
        validate_file f = (true, "验证通过"))) := by
  constructor
  · intro h
    simp [validate_file, h]
  · intro n hn hg
    refine ⟨?_, ?_, ?_, ?_⟩
    · intro hext
      simp at hext
      simp [validate_file, hn, hg, hext]
    · intro hext h0
      subst h0
      simp at hext
      simp [validate_file, hn, hg, hext]
    · intro hext h0 hbig
      simp at hext
      simp [validate_file, hn, hg, hext, h0, hbig]
    · intro hext h0 hsmall
      simp at hext
      simp [validate_file, hn, hg, hext, h0, Nat.not_lt.mpr hsmall]

/-- Witness for C3 at a concrete candidate: a readable 55-byte file
named `/up/a.txt` is rejected with the unsupported-file-type reason. -/
theorem validate_file_check_order_spot :
    validate_file ⟨true, "/up/a.txt", Except.ok 55⟩ =
      (false, "不支持的文件类型: .txt") :=
  ((validate_file_check_order ⟨true, "/up/a.txt", Except.ok 55⟩).2
    55 rfl rfl).1 (by decide)

/-! ### Reaper sweep lemmas -/

/-- The per-entry processing fold of one sweep. -/
def foldReap (env : ReapEnv) (L : List (String × Nat)) (st : SysState) :
    SysState :=
  L.foldl (fun s e => reapOne env s e.1) st

lemma cleanupSweep_def (env : ReapEnv) (st : SysState) :
    cleanupSweep env st = foldReap env (st.reg.filter (isExpired env)) st :=
  rfl

lemma reapOne_dirs (env : ReapEnv) (st : SysState) (q : String) :
    (reapOne env st q).dirs = st.dirs := by
  simp only [reapOne]
  split
  · split <;> rfl
  · rfl

lemma foldReap_dirs (env : ReapEnv) (L : List (String × Nat)) :
    ∀ st : SysState, (foldReap env L st).dirs = st.dirs := by
  induction L with
  | nil => intro st; rfl
  | cons e L ih =>
    intro st
    calc (foldReap env (e :: L) st).dirs
        = (foldReap env L (reapOne env st e.1)).dirs := rfl
      _ = (reapOne env st e.1).dirs := ih _
      _ = st.dirs := reapOne_dirs env st e.1

lemma reapOne_reg_other (env : ReapEnv) (st : SysState) {q p : String}
    (h : p ≠ q) (t : Nat) :
    ((p, t) ∈ (reapOne env st q).reg ↔ (p, t) ∈ st.reg) := by
  simp only [reapOne]
  split
  · split
    · exact Iff.rfl
    · simp [eraseReg, List.mem_filter, h]
  · simp [eraseReg, List.mem_filter, h]

lemma reapOne_files_other (env : ReapEnv) (st : SysState) {q p : String}
    (h : p ≠ q) :
    (p ∈ (reapOne env st q).files ↔ p ∈ st.files) := by
  simp only [reapOne]
  split
  · split
    · exact Iff.rfl
    · simp [List.mem_filter, h]
  · exact Iff.rfl

lemma reapOne_pathExists_other (env : ReapEnv) (st : SysState) {q p : String}
    (h : p ≠ q) :
    pathExists (reapOne env st q) p = pathExists st p := by
  simp only [pathExists, reapOne_dirs]
  rw [Bool.eq_iff_iff]
  simp [reapOne_files_other env st h]

lemma reapOne_self_kept (env : ReapEnv) (st : SysState) (p : String)
    (hE : pathExists st p = true) (hF : env.removeFails p = true) :
    reapOne env st p = st := by
  simp [reapOne, hE, hF]

lemma reapOne_self_removed (env : ReapEnv) (st : SysState) (p : String)
    (hc : ¬(pathExists st p = true ∧ env.removeFails p = true)) :
    (∀ t, (p, t) ∉ (reapOne env st p).reg) ∧ p ∉ (reapOne env st p).files := by
  by_cases hE : pathExists st p = true
  · have hF : env.removeFails p = false := by
      cases hFv : env.removeFails p
      · rfl
      · exact absurd ⟨hE, hFv⟩ hc
    constructor
    · intro t
      simp [reapOne, hE, hF, eraseReg, List.mem_filter]
    · simp [reapOne, hE, hF, List.mem_filter]
  · have hE' : pathExists st p = false := by
      cases hEv : pathExists st p
      · rfl
      · exact absurd hEv hE
    have hnf : p ∉ st.files := by
      intro hmem
      have : pathExists st p = true := by
        simp [pathExists]
        exact Or.inl hmem
      exact hE this
    constructor
    · intro t
      simp [reapOne, hE', eraseReg, List.mem_filter]
    · simpa [reapOne, hE'] using hnf

lemma reapOne_files_mono (env : ReapEnv) (st : SysState) (q p : String) :
    p ∈ (reapOne env st q).files → p ∈ st.files := by
  simp only [reapOne]
  split
  · split
    · exact id
    · intro h
      exact (List.mem_filter.mp h).1
  · exact id

lemma foldReap_other (env : ReapEnv) (L : List (String × Nat)) (st : SysState)
    (p : String) (hp : p ∉ L.map Prod.fst) :
    (∀ t, ((p, t) ∈ (foldReap env L st).reg ↔ (p, t) ∈ st.reg)) ∧
    (p ∈ (foldReap env L st).files ↔ p ∈ st.files) := by
  induction L generalizing st with
  | nil => exact ⟨fun _ => Iff.rfl, Iff.rfl⟩
  | cons e L ih =>
    have hpe : p ≠ e.1 := by
      intro h
      exact hp (by simp [h])
    have hp' : p ∉ L.map Prod.fst := by
      intro h
      exact hp (by simp [h])
    have hrec := ih (reapOne env st e.1) hp'
    refine ⟨fun t => ?_, ?_⟩
    · exact (hrec.1 t).trans (reapOne_reg_other env st hpe t)
    · exact hrec.2.trans (reapOne_files_other env st hpe)

lemma foldReap_main (env : ReapEnv) (L : List (String × Nat)) (st : SysState)
    (p : String) (hnd : (L.map Prod.fst).Nodup) (hp : p ∈ L.map Prod.fst) :
    (pathExists st p = true → env.removeFails p = true →
       (∀ t, ((p, t) ∈ (foldReap env L st).reg ↔ (p, t) ∈ st.reg)) ∧
       (p ∈ (foldReap env L st).files ↔ p ∈ st.files)) ∧
    (¬(pathExists st p = true ∧ env.removeFails p = true) →
       (∀ t, (p, t) ∉ (foldReap env L st).reg) ∧
       p ∉ (foldReap env L st).files) := by
  induction L generalizing st with
  | nil => simp at hp
  | cons e L ih =>
    have hstep : foldReap env (e :: L) st = foldReap env L (reapOne env st e.1) :=
      rfl
    rw [List.map_cons] at hnd hp
    by_cases hpe : p = e.1
    · have hnotin : p ∉ L.map Prod.fst := by
        subst hpe
        exact (List.nodup_cons.mp hnd).1
      constructor
      · intro hE hF
        have hst : reapOne env st e.1 = st := by
          rw [← hpe]
          exact reapOne_self_kept env st p hE hF
        rw [hstep, hst]
        exact foldReap_other env L st p hnotin
      · intro hc
        have hrem := reapOne_self_removed env st p hc
        have hoth := foldReap_other env L (reapOne env st p) p hnotin
        rw [hstep, ← hpe]
        exact ⟨fun t h => hrem.1 t ((hoth.1 t).mp h),
               fun h => hrem.2 (hoth.2.mp h)⟩
    · have hp' : p ∈ L.map Prod.fst := by
        rcases List.mem_cons.mp hp with h | h
        · exact absurd h hpe
        · exact h
      have hnd' : (L.map Prod.fst).Nodup := (List.nodup_cons.mp hnd).2
      have hPE := reapOne_pathExists_other env st (q := e.1) hpe
      obtain ⟨ih1, ih2⟩ := ih (reapOne env st e.1) hnd' hp'
      rw [hstep]
      constructor
      · intro hE hF
        obtain ⟨r1, r2⟩ := ih1 (by rw [hPE]; exact hE) hF
        exact ⟨fun t => (r1 t).trans (reapOne_reg_other env st hpe t),
               r2.trans (reapOne_files_other env st hpe)⟩
      · intro hc
        exact ih2 (by rw [hPE]; exact hc)

/-- C1 counterexample: the claim "the entry is removed from the registry
regardless of whether the file deletion succeeded or failed" is false.
Registry `{/tmp/f ↦ 0}`, file present, sweep at time 10000 (age 10000 >
TTL 3600) with `os.remove` raising: in the source the
`temp_files.pop(path, None)` sits inside the `try` after `os.remove`, so
the raising delete skips the pop and the entry survives the sweep. -/
theorem cleanup_entry_kept_on_remove_failure :
    (cleanupSweep ⟨10000, fun _ => true⟩
        ⟨["/tmp/f"], [], [("/tmp/f", 0)]⟩).reg = [("/tmp/f", 0)] ∧
    (cleanupSweep ⟨10000, fun _ => true⟩
        ⟨["/tmp/f"], [], [("/tmp/f", 0)]⟩).files = ["/tmp/f"] := by
  decide

/-- C1 (amended): for every sweep and registry entry whose age exceeds
the TTL, the reaper attempts deletion (tolerating an absent file, whose
entry it drops); the entry is removed from the registry exactly when the
deletion attempt did not raise — if `os.remove` fails, the entry is kept
(and retried on a later sweep); when deletion succeeds the file is gone
as well. -/
theorem cleanup_expired_entry_outcome (env : ReapEnv) (st : SysState)
    (p : String) (t : Nat)
    (hnd : (st.reg.map Prod.fst).Nodup)
    (hmem : (p, t) ∈ st.reg)
    (hexp : isExpired env (p, t) = true) :
    (pathExists st p = true → env.removeFails p = true →
       (p, t) ∈ (cleanupSweep env st).reg) ∧
    (¬(pathExists st p = true ∧ env.removeFails p = true) →
       ∀ u, (p, u) ∉ (cleanupSweep env st).reg) ∧
    (pathExists st p = true → env.removeFails p = false →
       p ∉ (cleanupSweep env st).files) := by
  have hsub : (st.reg.filter (isExpired env)).Sublist st.reg :=
    List.filter_sublist _
  have hnd' : ((st.reg.filter (isExpired env)).map Prod.fst).Nodup :=
    (hsub.map Prod.fst).nodup hnd
  have hmem' : (p, t) ∈ st.reg.filter (isExpired env) :=
    List.mem_filter.mpr ⟨hmem, hexp⟩
  have hp : p ∈ (st.reg.filter (isExpired env)).map Prod.fst :=
    List.mem_map.mpr ⟨(p, t), hmem', rfl⟩
  have hmain := foldReap_main env (st.reg.filter (isExpired env)) st p hnd' hp
  rw [cleanupSweep_def]
  refine ⟨fun hE hF => ?_, fun hc u => ?_, fun hE hF => ?_⟩
  · exact ((hmain.1 hE hF).1 t).mpr hmem
  · exact (hmain.2 hc).1 u
  · exact (hmain.2 (by simp [hF])).2

/-- Witness for the amended C1: a present, deletable, expired entry is
dropped from the registry by the sweep. -/
theorem cleanup_expired_entry_outcome_spot :
    ("/tmp/f", 0) ∉ (cleanupSweep ⟨10000, fun _ => false⟩
        ⟨["/tmp/f"], [], [("/tmp/f", 0)]⟩).reg :=
  (cleanup_expired_entry_outcome ⟨10000, fun _ => false⟩
      ⟨["/tmp/f"], [], [("/tmp/f", 0)]⟩ "/tmp/f" 0
      (by decide) (by decide) (by decide)).2.1 (by decide) 0

/-- C2 counterexample: the claim "no file or directory produced by an
unlock operation outlives the Artifact Registry's TTL policy" is false.
A successful unlock at time 100 leaves its staging directory
`/tmp/stage1` on disk; a reaper sweep at time 10000 — far past
`TEMP_FILES_TTL = 3600` — deletes the registered output file (the
filesystem is empty of files afterwards) but the staging directory,
which was never registered, survives. -/
theorem staging_dir_outlives_ttl :
    remove_pdf_restrictions ⟨Except.ok "/tmp/stage1", Except.ok 3,
        Except.ok (), Except.ok (), 100⟩ ⟨true, "/up/doc.pdf", Except.ok 55⟩
        ⟨[], [], []⟩
      = Except.ok (⟨["/tmp/stage1/doc.pdf_unlocked"], ["/tmp/stage1"],
          [("/tmp/stage1/doc.pdf_unlocked", 100)]⟩,
          some "/tmp/stage1/doc.pdf_unlocked", "✅ 成功解锁文件: doc.pdf") ∧
    (cleanupSweep ⟨10000, fun _ => false⟩
        ⟨["/tmp/stage1/doc.pdf_unlocked"], ["/tmp/stage1"],
          [("/tmp/stage1/doc.pdf_unlocked", 100)]⟩).files = [] ∧
    "/tmp/stage1" ∈ (cleanupSweep ⟨10000, fun _ => false⟩
        ⟨["/tmp/stage1/doc.pdf_unlocked"], ["/tmp/stage1"],
          [("/tmp/stage1/doc.pdf_unlocked", 100)]⟩).dirs := by
  decide

/-- C2 (amended): the reaper reclaims exactly the registered artifacts
(unlocked output files and archives): an expired registered path that is
present as a file and deletable is removed from disk and from the
registry by the next sweep; but a sweep never deletes any directory, so
the per-unlock staging directory of a successful unlock — which is never
registered — is not reclaimed by the reaper and outlives the TTL. -/
theorem reaper_reclaims_registered_files_only (env : ReapEnv)
    (st : SysState) (p : String) (t : Nat)
    (hnd : (st.reg.map Prod.fst).Nodup)
    (hmem : (p, t) ∈ st.reg)
    (hexp : isExpired env (p, t) = true)
    (hfile : p ∈ st.files)
    (hok : env.removeFails p = false) :
    p ∉ (cleanupSweep env st).files ∧
    (∀ u, (p, u) ∉ (cleanupSweep env st).reg) ∧
    (∀ (env' : ReapEnv) (st' : SysState),
       (cleanupSweep env' st').dirs = st'.dirs) := by
  have hsub : (st.reg.filter (isExpired env)).Sublist st.reg :=
    List.filter_sublist _
  have hnd' : ((st.reg.filter (isExpired env)).map Prod.fst).Nodup :=
    (hsub.map Prod.fst).nodup hnd
  have hmem' : (p, t) ∈ st.reg.filter (isExpired env) :=
    List.mem_filter.mpr ⟨hmem, hexp⟩
  have hp : p ∈ (st.reg.filter (isExpired env)).map Prod.fst :=
    List.mem_map.mpr ⟨(p, t), hmem', rfl⟩
  have hmain := foldReap_main env (st.reg.filter (isExpired env)) st p hnd' hp
  have hrem := hmain.2 (by simp [hok])
  rw [cleanupSweep_def]
  exact ⟨hrem.2, hrem.1, fun env' st' => foldReap_dirs env' _ st'⟩

/-- Witness for the amended C2 at the state a successful unlock leaves
behind (the post state of `staging_dir_outlives_ttl`'s run). -/
theorem reaper_reclaims_registered_files_only_spot :
    "/tmp/stage1/doc.pdf_unlocked" ∉
      (cleanupSweep ⟨10000, fun _ => false⟩
        ⟨["/tmp/stage1/doc.pdf_unlocked"], ["/tmp/stage1"],
          [("/tmp/stage1/doc.pdf_unlocked", 100)]⟩).files :=
  (reaper_reclaims_registered_files_only ⟨10000, fun _ => false⟩
      ⟨["/tmp/stage1/doc.pdf_unlocked"], ["/tmp/stage1"],
        [("/tmp/stage1/doc.pdf_unlocked", 100)]⟩
      "/tmp/stage1/doc.pdf_unlocked" 100
      (by decide) (by decide) (by decide) (by decide) (by decide)).1

/-! ### Batch coordinator lemmas -/

/-- The output path with which a completed task contributes to
`success_files`: its returned `output_path` when `future.result()` did
not raise and the path is truthy (the `if output_path:` test), `none`
otherwise. -/
def taskPath (t : TaskSpec) : Option String :=
  match t.result with
  | .ok (some p, _) => if p ≠ "" then some p else none
  | .ok (none, _) => none
  | .error _ => none

lemma collectOne_fields (total : Nat) (acc : BatchAcc) (t : TaskSpec) :
    (collectOne total acc t).success_files =
      acc.success_files ++ (taskPath t).toList ∧
    (collectOne total acc t).fail_count =
      acc.fail_count + (if (taskPath t).isNone then 1 else 0) ∧
    (collectOne total acc t).completed_tasks = acc.completed_tasks + 1 ∧
    (collectOne total acc t).progressCalls =
      acc.progressCalls ++ [(acc.completed_tasks + 1, total)] := by
  cases ht : t.result with
  | error e => simp [collectOne, taskPath, ht]
  | ok pr =>
    obtain ⟨op, m⟩ := pr
    cases op with
    | none => simp [collectOne, taskPath, ht]
    | some p =>
      by_cases hp : p = ""
      · simp [collectOne, taskPath, ht, hp]
      · simp [collectOne, taskPath, ht, hp]

lemma collectFold (total : Nat) (L : List TaskSpec) :
    ∀ acc : BatchAcc,
    (L.foldl (collectOne total) acc).success_files =
      acc.success_files ++ L.filterMap taskPath ∧
    (L.foldl (collectOne total) acc).fail_count =
      acc.fail_count + L.countP (fun t => (taskPath t).isNone) ∧
    (L.foldl (collectOne total) acc).completed_tasks =
      acc.completed_tasks + L.length ∧
    (L.foldl (collectOne total) acc).progressCalls.length =
      acc.progressCalls.length + L.length ∧
    (∀ pr ∈ (L.foldl (collectOne total) acc).progressCalls,
       pr ∈ acc.progressCalls ∨ pr.2 = total) := by
  induction L with
  | nil =>
    intro acc
    exact ⟨by simp, by simp, by simp, by simp, fun pr hpr => Or.inl hpr⟩
  | cons t L ih =>
    intro acc
    obtain ⟨hs, hf, hc, hp⟩ := collectOne_fields total acc t
    obtain ⟨rs, rf, rc, rl, rmem⟩ := ih (collectOne total acc t)
    have hstep : (t :: L).foldl (collectOne total) acc =
        L.foldl (collectOne total) (collectOne total acc t) := rfl
    rw [hstep]
    refine ⟨?_, ?_, ?_, ?_, ?_⟩
    · rw [rs, hs, List.filterMap_cons]
      cases htp : taskPath t <;> simp [htp]
    · rw [rf, hf, List.countP_cons]
      cases htp : taskPath t <;> simp [htp] <;> omega
    · rw [rc, hc, List.length_cons]
      omega
    · rw [rl, hp, List.length_append, List.length_cons]
      simp
      omega
    · intro pr hpr
      rcases rmem pr hpr with h | h
      · rw [hp] at h
        rcases List.mem_append.mp h with h2 | h2
        · exact Or.inl h2
        · right
          have : pr = (acc.completed_tasks + 1, total) := by
            simpa using h2
          rw [this]
      · exact Or.inr h

lemma length_filter_add (l : List TaskSpec) (p : TaskSpec → Bool) :
    (l.filter p).length + (l.filter (fun a => !(p a))).length = l.length := by
  induction l with
  | nil => rfl
  | cons a l ih =>
    by_cases h : p a <;> simp [List.filter_cons, h, ← ih] <;> omega

lemma submitLoop_allNamed (files : List TaskSpec)
    (h : ∀ t ∈ files, t.file.hasName = true) :
    submitLoop files = (files.filter (fun t => (validate_file t.file).1),
      (files.filter (fun t => !(validate_file t.file).1)).length, none) := by
  induction files with
  | nil => rfl
  | cons t rest ih =>
    have ht := h t (List.mem_cons_self t rest)
    have hrest := ih (fun u hu => h u (List.mem_cons_of_mem t hu))
    by_cases hv : (validate_file t.file).1 = true
    · simp [submitLoop, hv, hrest, List.filter_cons]
    · have hv2 : (validate_file t.file).1 = false := by
        cases hb : (validate_file t.file).1
        · rfl
        · exact absurd hb hv
      simp [submitLoop, hv2, ht, hrest, List.filter_cons]

/-- C4 counterexample: the claim "the Batch Coordinator submits exactly
N−K unlock tasks to the worker pool (rejected candidates are counted as
failures and never scheduled), and the list of successful output paths
it returns has length at most N−K" is false.  Batch of N = 2: first a
candidate without a `.name` attribute (the one rejected candidate,
K = 1), then a valid one, so N−K = 1.  Logging the rejection
(src/app.py line 157) evaluates `os.path.basename(file.name)`, which
raises AttributeError for the nameless candidate and aborts the
submission loop: zero tasks are submitted (not 1) and the coordinator
raises instead of returning a list. -/
theorem batch_submission_aborts_cex :
    (([⟨⟨false, "x", Except.ok 3⟩, Except.ok (none, "m")⟩,
       ⟨⟨true, "/u/a.pdf", Except.ok 9⟩,
         Except.ok (some "/t/a.pdf_unlocked", "ok")⟩] :
       List TaskSpec).filter (fun t => (validate_file t.file).1)).length
      = 1 ∧
    (scheduledTasks
       [⟨⟨false, "x", Except.ok 3⟩, Except.ok (none, "m")⟩,
        ⟨⟨true, "/u/a.pdf", Except.ok 9⟩,
          Except.ok (some "/t/a.pdf_unlocked", "ok")⟩]).length = 0 ∧
    process_multiple_files
       [⟨⟨false, "x", Except.ok 3⟩, Except.ok (none, "m")⟩,
        ⟨⟨true, "/u/a.pdf", Except.ok 9⟩,
          Except.ok (some "/t/a.pdf_unlocked", "ok")⟩] []
      = Except.error "object has no attribute name" :=
  ⟨rfl, rfl, rfl⟩

/-- C4 (amended): for every batch of N candidates all of which expose a
`.name` attribute, of which K fail validation, the coordinator submits
exactly N−K unlock tasks (the K rejected candidates are counted as
failures — `fail_count` leaves the submission loop at K — and never
scheduled: every submitted task passed validation), the
submission loop raises nothing, and for every completion order the
returned list of successful output paths has length at most N−K.
(When a rejected candidate lacks `.name`, logging its rejection raises
AttributeError instead — see the counterexample.) -/
theorem batch_schedules_exactly_validated (files completion : List TaskSpec)
    (hnm : ∀ t ∈ files, t.file.hasName = true)
    (hperm : completion.Perm (scheduledTasks files)) :
    (scheduledTasks files).length =
      files.length -
        (files.filter (fun t => !(validate_file t.file).1)).length ∧
    (∀ t ∈ scheduledTasks files, (validate_file t.file).1 = true) ∧
    rejectedCount files =
      (files.filter (fun t => !(validate_file t.file).1)).length ∧
    submitError files = none ∧
    (∀ acc, process_multiple_files files completion = Except.ok acc →
       acc.success_files.length ≤
         files.length -
           (files.filter (fun t => !(validate_file t.file).1)).length) := by
  have hsl := submitLoop_allNamed files hnm
  have hsched : scheduledTasks files =
      files.filter (fun t => (validate_file t.file).1) := by
    simp [scheduledTasks, hsl]
  have herr : submitError files = none := by simp [submitError, hsl]
  have hrej : rejectedCount files =
      (files.filter (fun t => !(validate_file t.file).1)).length := by
    simp [rejectedCount, hsl]
  have hsplit := length_filter_add files (fun t => (validate_file t.file).1)
  have hlen : (scheduledTasks files).length =
      files.length -
        (files.filter (fun t => !(validate_file t.file).1)).length := by
    rw [hsched]
    omega
  refine ⟨hlen, ?_, hrej, herr, ?_⟩
  · rw [hsched]
    exact fun t ht => (List.mem_filter.mp ht).2
  · intro acc hacc
    by_cases hemp : files.isEmpty
    · have hae : acc = ⟨[], 0, 0, 0, []⟩ := by
        simp [process_multiple_files, hemp] at hacc
        exact hacc.symm
      rw [hae]
      exact Nat.zero_le _
    · have hae : acc = completion.foldl
          (collectOne (scheduledTasks files).length)
          ⟨[], 0, rejectedCount files, 0, []⟩ := by
        simp [process_multiple_files, hemp, herr] at hacc
        exact hacc.symm
      rw [hae,
        (collectFold (scheduledTasks files).length completion
          ⟨[], 0, rejectedCount files, 0, []⟩).1]
      calc ([] ++ completion.filterMap taskPath).length
          ≤ completion.length := by
            simpa using List.length_filterMap_le taskPath completion
        _ = (scheduledTasks files).length := hperm.length_eq
        _ = _ := hlen

/-- Witness for the amended C4: one valid candidate, one named invalid
candidate, one valid-but-failing candidate: N = 3, K = 1, exactly 2
tasks scheduled, nothing raised, and the returned list of the concrete
run has length at most 2. -/
theorem batch_schedules_exactly_validated_spot :
    (scheduledTasks
        [⟨⟨true, "/u/a.pdf", Except.ok 9⟩,
            Except.ok (some "/t/a.pdf_unlocked", "ok")⟩,
         ⟨⟨true, "/u/b.txt", Except.ok 9⟩, Except.ok (some "x", "m")⟩,
         ⟨⟨true, "/u/c.pdf", Except.ok 9⟩, Except.error "boom"⟩]).length
      = 3 - 1 ∧
    (⟨["/t/a.pdf_unlocked"], 1, 2, 2, [(1, 2), (2, 2)]⟩ :
        BatchAcc).success_files.length ≤ 3 - 1 := by
  have h := batch_schedules_exactly_validated
    [⟨⟨true, "/u/a.pdf", Except.ok 9⟩,
        Except.ok (some "/t/a.pdf_unlocked", "ok")⟩,
     ⟨⟨true, "/u/b.txt", Except.ok 9⟩, Except.ok (some "x", "m")⟩,
     ⟨⟨true, "/u/c.pdf", Except.ok 9⟩, Except.error "boom"⟩]
    (scheduledTasks
      [⟨⟨true, "/u/a.pdf", Except.ok 9⟩,
          Except.ok (some "/t/a.pdf_unlocked", "ok")⟩,
       ⟨⟨true, "/u/b.txt", Except.ok 9⟩, Except.ok (some "x", "m")⟩,
       ⟨⟨true, "/u/c.pdf", Except.ok 9⟩, Except.error "boom"⟩])
    (by decide) (List.Perm.refl _)
  exact ⟨h.1.trans (by decide),
    h.2.2.2.2 ⟨["/t/a.pdf_unlocked"], 1, 2, 2, [(1, 2), (2, 2)]⟩ rfl⟩

/-- C5 counterexample: the claim "the exception aborts neither the
sibling tasks nor the coordinator, the coordinator itself never raises,
and it still returns the list of the remaining successful output paths
after all tasks complete" is false.  Batch: a valid candidate whose
unlock task raises ("boom"), then a nameless candidate.  The valid task
is submitted (and raises), but logging the nameless candidate's
rejection (src/app.py line 157) raises AttributeError inside the
coordinator itself, which propagates: the coordinator raises and
returns no list. -/
theorem batch_coordinator_raises_cex :
    scheduledTasks
        [⟨⟨true, "/u/c.pdf", Except.ok 9⟩, Except.error "boom"⟩,
         ⟨⟨false, "x", Except.ok 3⟩, Except.ok (none, "m")⟩]
      = [⟨⟨true, "/u/c.pdf", Except.ok 9⟩, Except.error "boom"⟩] ∧
    process_multiple_files
        [⟨⟨true, "/u/c.pdf", Except.ok 9⟩, Except.error "boom"⟩,
         ⟨⟨false, "x", Except.ok 3⟩, Except.ok (none, "m")⟩]
        [⟨⟨true, "/u/c.pdf", Except.ok 9⟩, Except.error "boom"⟩]
      = Except.error "object has no attribute name" :=
  ⟨rfl, rfl⟩

/-- C5 (amended): for every batch whose candidates all expose `.name`
and every completion order, the submission loop raises nothing and, for
the returned outcome, a scheduled task whose callable raised is caught
and counted as a failure, aborting neither the sibling tasks nor the
coordinator: the returned list is exactly the successful output paths
of all completed tasks, the final `fail_count` is the validation
rejections plus every non-successful task, and every submitted task is
driven to completion.  (When a candidate lacks `.name`, the coordinator
itself raises while logging the rejection — see the counterexample.) -/
theorem batch_isolates_task_exceptions (files completion : List TaskSpec)
    (hnm : ∀ t ∈ files, t.file.hasName = true)
    (hperm : completion.Perm (scheduledTasks files)) :
    submitError files = none ∧
    ∀ acc, process_multiple_files files completion = Except.ok acc →
      acc.success_files = completion.filterMap taskPath ∧
      acc.fail_count =
        (files.filter (fun t => !(validate_file t.file).1)).length +
          completion.countP (fun t => (taskPath t).isNone) ∧
      acc.completed_tasks = completion.length ∧
      acc.progressCalls.length = completion.length := by
  have hsl := submitLoop_allNamed files hnm
  have herr : submitError files = none := by simp [submitError, hsl]
  refine ⟨herr, ?_⟩
  intro acc hacc
  by_cases hemp : files.isEmpty
  · have hfe : files = [] := List.isEmpty_iff.mp hemp
    subst hfe
    have hce : completion = [] := hperm.eq_nil
    subst hce
    have hae : acc = ⟨[], 0, 0, 0, []⟩ := by
      simp [process_multiple_files] at hacc
      exact hacc.symm
    subst hae
    simp
  · have hrej : rejectedCount files =
        (files.filter (fun t => !(validate_file t.file).1)).length := by
      simp [rejectedCount, hsl]
    have hae : acc = completion.foldl
        (collectOne (scheduledTasks files).length)
        ⟨[], 0, rejectedCount files, 0, []⟩ := by
      simp [process_multiple_files, hemp, herr] at hacc
      exact hacc.symm
    obtain ⟨rs, rf, rc, rl, _⟩ :=
      collectFold (scheduledTasks files).length completion
        ⟨[], 0, rejectedCount files, 0, []⟩
    subst hae
    exact ⟨by simpa using rs, by simpa [hrej] using rf, by simpa using rc,
           by simpa using rl⟩

/-- Witness for the amended C5: the batch with one raising task raises
nothing at submission and the concrete returned outcome lists exactly
the successful sibling's path. -/
theorem batch_isolates_task_exceptions_spot :
    submitError
        [⟨⟨true, "/u/a.pdf", Except.ok 9⟩,
            Except.ok (some "/t/a.pdf_unlocked", "ok")⟩,
         ⟨⟨true, "/u/b.txt", Except.ok 9⟩, Except.ok (some "x", "m")⟩,
         ⟨⟨true, "/u/c.pdf", Except.ok 9⟩, Except.error "boom"⟩] = none ∧
    (⟨["/t/a.pdf_unlocked"], 1, 2, 2, [(1, 2), (2, 2)]⟩ :
        BatchAcc).success_files =
      (scheduledTasks
        [⟨⟨true, "/u/a.pdf", Except.ok 9⟩,
            Except.ok (some "/t/a.pdf_unlocked", "ok")⟩,
         ⟨⟨true, "/u/b.txt", Except.ok 9⟩, Except.ok (some "x", "m")⟩,
         ⟨⟨true, "/u/c.pdf", Except.ok 9⟩,
            Except.error "boom"⟩]).filterMap taskPath := by
  have h := batch_isolates_task_exceptions
    [⟨⟨true, "/u/a.pdf", Except.ok 9⟩,
        Except.ok (some "/t/a.pdf_unlocked", "ok")⟩,
     ⟨⟨true, "/u/b.txt", Except.ok 9⟩, Except.ok (some "x", "m")⟩,
     ⟨⟨true, "/u/c.pdf", Except.ok 9⟩, Except.error "boom"⟩]
    (scheduledTasks
      [⟨⟨true, "/u/a.pdf", Except.ok 9⟩,
          Except.ok (some "/t/a.pdf_unlocked", "ok")⟩,
       ⟨⟨true, "/u/b.txt", Except.ok 9⟩, Except.ok (some "x", "m")⟩,
       ⟨⟨true, "/u/c.pdf", Except.ok 9⟩, Except.error "boom"⟩])
    (by decide) (List.Perm.refl _)
  exact ⟨h.1,
    (h.2 ⟨["/t/a.pdf_unlocked"], 1, 2, 2, [(1, 2), (2, 2)]⟩ rfl).1⟩

/-- C10 counterexample: the claim "when every candidate in the batch
fails validation, it returns the empty list, schedules no unlock tasks,
and never invokes the progress observer" is false in its returns-the-
empty-list part.  A batch whose single candidate fails validation (for
lack of `.name`): the coordinator raises AttributeError while logging
the rejection (src/app.py line 157) instead of returning []. -/
theorem batch_all_invalid_raises_cex :
    (validate_file (⟨false, "x", Except.ok 3⟩ : Candidate)).1 = false ∧
    process_multiple_files
        [⟨⟨false, "x", Except.ok 3⟩, Except.ok (none, "m")⟩] []
      = Except.error "object has no attribute name" :=
  ⟨rfl, rfl⟩

/-- C10 (amended): with an empty (absent) candidate list the coordinator
returns the empty outcome immediately; when every candidate fails
validation and every candidate exposes `.name`, it schedules nothing,
raises nothing, and returns the empty list without ever invoking the
progress observer (when a rejected candidate lacks `.name` the
coordinator instead raises while logging, still never reaching the
progress observer — see the counterexample); and in every non-raising
run each recorded progress call `(completed, total)` has `total ≠ 0`,
so the fraction `completed / total` is never evaluated with a zero
denominator. -/
theorem batch_no_zero_division (files completion : List TaskSpec)
    (hperm : completion.Perm (scheduledTasks files)) :
    (files = [] →
       process_multiple_files files completion =
         Except.ok ⟨[], 0, 0, 0, []⟩) ∧
    ((∀ t ∈ files, t.file.hasName = true) →
     (∀ t ∈ files, (validate_file t.file).1 = false) →
       scheduledTasks files = [] ∧ submitError files = none ∧
       ∀ acc, process_multiple_files files completion = Except.ok acc →
         acc.success_files = [] ∧ acc.progressCalls = []) ∧
    (∀ acc, process_multiple_files files completion = Except.ok acc →
       ∀ pr ∈ acc.progressCalls, pr.2 ≠ 0) := by
  refine ⟨?_, ?_, ?_⟩
  · intro hfe
    subst hfe
    rfl
  · intro hnm hall
    have hsl := submitLoop_allNamed files hnm
    have hfilter : files.filter (fun t => (validate_file t.file).1) = [] :=
      List.filter_eq_nil_iff.mpr (fun t ht => by simp [hall t ht])
    have hsched : scheduledTasks files = [] := by
      simp [scheduledTasks, hsl, hfilter]
    have herr : submitError files = none := by simp [submitError, hsl]
    have hce : completion = [] := by
      rw [hsched] at hperm
      exact hperm.eq_nil
    subst hce
    refine ⟨hsched, herr, ?_⟩
    intro acc hacc
    by_cases hemp : files.isEmpty
    · have hae : acc = ⟨[], 0, 0, 0, []⟩ := by
        simp [process_multiple_files, hemp] at hacc
        exact hacc.symm
      subst hae
      exact ⟨rfl, rfl⟩
    · have hae : acc = ⟨[], 0, rejectedCount files, 0, []⟩ := by
        simp [process_multiple_files, hemp, herr] at hacc
        exact hacc.symm
      subst hae
      exact ⟨rfl, rfl⟩
  · intro acc hacc pr hpr
    by_cases hemp : files.isEmpty
    · have hae : acc = ⟨[], 0, 0, 0, []⟩ := by
        simp [process_multiple_files, hemp] at hacc
        exact hacc.symm
      subst hae
      exact absurd hpr (List.not_mem_nil pr)
    · cases hse : submitError files with
      | some e =>
        simp [process_multiple_files, hemp, hse] at hacc
      | none =>
        have hae : acc = completion.foldl
            (collectOne (scheduledTasks files).length)
            ⟨[], 0, rejectedCount files, 0, []⟩ := by
          simp [process_multiple_files, hemp, hse] at hacc
          exact hacc.symm
        subst hae
        have hmem :=
          (collectFold (scheduledTasks files).length completion
            ⟨[], 0, rejectedCount files, 0, []⟩).2.2.2.2 pr hpr
        rcases hmem with h | h
        · exact absurd h (List.not_mem_nil pr)
        · rw [h]
          intro h0
          have hsched : scheduledTasks files = [] :=
            List.length_eq_zero.mp h0
          rw [hsched] at hperm
          have hce : completion = [] := hperm.eq_nil
          subst hce
          exact absurd hpr (List.not_mem_nil pr)

/-- Witness for the amended C10: a nonempty batch whose only candidate
fails validation (with `.name` present) schedules nothing and raises
nothing. -/
theorem batch_no_zero_division_spot :
    scheduledTasks
        [⟨⟨true, "/u/b.txt", Except.ok 9⟩, Except.ok (some "x", "m")⟩]
      = [] ∧
    submitError
        [⟨⟨true, "/u/b.txt", Except.ok 9⟩, Except.ok (some "x", "m")⟩]
      = none := by
  have h := batch_no_zero_division
    [⟨⟨true, "/u/b.txt", Except.ok 9⟩, Except.ok (some "x", "m")⟩] []
    List.Perm.nil
  have h2 := h.2.1 (by decide) (by decide)
  exact ⟨h2.1, h2.2.1⟩

/-! ### Unlock worker and archive builder lemmas -/

def isErr {α : Type} (x : Except String α) : Bool :=
  match x with
  | .error _ => true
  | .ok _ => false

/-- Does this invocation of the worker fail (for any reason: mkdtemp
failure, missing `.name`, malformed PDF, or I/O error while writing)? -/
def unlockFailed (env : UnlockEnv) (f : Candidate) : Bool :=
  isErr env.mkdtempResult || !f.hasName || isErr env.pdfPages ||
    isErr env.writeOk

lemma unlockFail_cleanup (td e : String) (st : SysState)
    (htd : td ≠ "") (hdir : td ∈ st.dirs) :
    unlockFail (Except.ok ()) (some td) e st =
      Except.ok (rmtree td st, none, "❌ 处理失败: " ++ e) ∧
    td ∉ (rmtree td st).dirs ∧
    ∀ p, strIsPrefixOf (td ++ "/") p = true → p ∉ (rmtree td st).files := by
  have hE : pathExists st td = true := by
    simp [pathExists]
    exact Or.inr hdir
  refine ⟨?_, ?_, ?_⟩
  · simp [unlockFail, htd, hE]
  · simp [rmtree, List.mem_filter]
  · intro p hp
    simp [rmtree, List.mem_filter, hp]

/-- The worker's `except` branch with a non-raising `shutil.rmtree`:
it always returns `.ok` with no path and the failure message, and when
the staging directory is non-empty-named it is fully removed. -/
lemma unlockFail_ok_branch (e : String) (st : SysState) (td : String)
    (hdir : td ∈ st.dirs) :
    isErr (unlockFail (Except.ok ()) (some td) e st) = false ∧
    ∀ r, unlockFail (Except.ok ()) (some td) e st = Except.ok r →
      r.2.1 = none ∧ r.2.2 = "❌ 处理失败: " ++ e ∧
      (td ≠ "" → td ∉ r.1.dirs ∧
        ∀ p, strIsPrefixOf (td ++ "/") p = true → p ∉ r.1.files) := by
  by_cases htd : td = ""
  · have hres : unlockFail (Except.ok ()) (some td) e st =
        Except.ok (st, none, "❌ 处理失败: " ++ e) := by
      simp [unlockFail, htd]
    refine ⟨by rw [hres]; rfl, ?_⟩
    intro r hr
    rw [hres] at hr
    injection hr with hr
    subst hr
    exact ⟨rfl, rfl, fun h => absurd htd h⟩
  · have hcl := unlockFail_cleanup td e st htd hdir
    refine ⟨by rw [hcl.1]; rfl, ?_⟩
    intro r hr
    rw [hcl.1] at hr
    injection hr with hr
    subst hr
    exact ⟨rfl, rfl, fun _ => ⟨hcl.2.1, hcl.2.2⟩⟩

/-- C6 counterexample: the claim "the worker ... returns an outcome
with output_path = None and a failure message, and never propagates an
exception to its caller" is false.  A malformed-PDF failure enters the
`except` branch, whose `shutil.rmtree(temp_dir)` (src/app.py line 134,
no surrounding handler, `ignore_errors` not set) itself fails: the
PermissionError propagates out of `remove_pdf_restrictions`, and no
`(None, message)` outcome is returned. -/
theorem unlock_rmtree_failure_propagates :
    remove_pdf_restrictions ⟨Except.ok "/tmp/s", Except.error "bad pdf",
        Except.ok (), Except.error "PermissionError", 5⟩
        ⟨true, "/up/doc.pdf", Except.ok 9⟩ ⟨["/up/doc.pdf"], [], []⟩
      = Except.error "PermissionError" :=
  rfl

/-- C6 (amended): whenever the unlock worker fails — for any reason
(mkdtemp failure, missing `.name`, malformed PDF, I/O error) — and the
staging-directory removal itself does not raise, the worker removes the
entire staging directory it allocated (every occurrence and every file
under it; tolerating, via the `os.path.exists` guard, a directory that
is already gone), returns `output_path = None` together with a
"❌ 处理失败: ..." message, and propagates no exception to its caller.
(When `shutil.rmtree` itself fails, its exception propagates instead —
see the counterexample.) -/
theorem unlock_failure_cleanup (env : UnlockEnv) (f : Candidate)
    (st : SysState) (h : unlockFailed env f = true)
    (hrm : env.rmtreeOk = Except.ok ()) :
    isErr (remove_pdf_restrictions env f st) = false ∧
    ∀ r, remove_pdf_restrictions env f st = Except.ok r →
      r.2.1 = none ∧
      (∃ e, r.2.2 = "❌ 处理失败: " ++ e) ∧
      (∀ td, env.mkdtempResult = Except.ok td → td ≠ "" →
         td ∉ r.1.dirs ∧
         ∀ p, strIsPrefixOf (td ++ "/") p = true → p ∉ r.1.files) := by
  cases hmk : env.mkdtempResult with
  | error e =>
    have hres : remove_pdf_restrictions env f st =
        Except.ok (st, none, "❌ 处理失败: " ++ e) := by
      simp [remove_pdf_restrictions, hmk, unlockFail]
    refine ⟨by rw [hres]; rfl, ?_⟩
    intro r hr
    rw [hres] at hr
    injection hr with hr
    subst hr
    exact ⟨rfl, ⟨e, rfl⟩, fun td htd => absurd htd (by simp)⟩
  | ok td0 =>
    have hmem1 : td0 ∈ td0 :: st.dirs := List.mem_cons_self td0 st.dirs
    cases hname : f.hasName with
    | false =>
      have hres : remove_pdf_restrictions env f st =
          unlockFail (Except.ok ()) (some td0)
            "object has no attribute name"
            { st with dirs := td0 :: st.dirs } := by
        simp [remove_pdf_restrictions, hmk, hname, hrm]
      have hb := unlockFail_ok_branch "object has no attribute name"
        { st with dirs := td0 :: st.dirs } td0 hmem1
      rw [hres]
      refine ⟨hb.1, ?_⟩
      intro r hr
      have hr2 := hb.2 r hr
      refine ⟨hr2.1, ⟨"object has no attribute name", hr2.2.1⟩, ?_⟩
      intro td htd htd'
      injection htd with htd
      subst htd
      exact hr2.2.2 htd'
    | true =>
      cases hpdf : env.pdfPages with
      | error e =>
        have hres : remove_pdf_restrictions env f st =
            unlockFail (Except.ok ()) (some td0) e
              { st with dirs := td0 :: st.dirs } := by
          simp [remove_pdf_restrictions, hmk, hname, hpdf, hrm]
        have hb := unlockFail_ok_branch e
          { st with dirs := td0 :: st.dirs } td0 hmem1
        rw [hres]
        refine ⟨hb.1, ?_⟩
        intro r hr
        have hr2 := hb.2 r hr
        refine ⟨hr2.1, ⟨e, hr2.2.1⟩, ?_⟩
        intro td htd htd'
        injection htd with htd
        subst htd
        exact hr2.2.2 htd'
      | ok n =>
        cases hwr : env.writeOk with
        | error e =>
          have hres : remove_pdf_restrictions env f st =
              unlockFail (Except.ok ()) (some td0) e
                { st with dirs := td0 :: st.dirs,
                          files := (td0 ++ "/" ++ basename f.name ++
                            "_unlocked") :: st.files } := by
            simp [remove_pdf_restrictions, hmk, hname, hpdf, hwr, hrm]
          have hb := unlockFail_ok_branch e
            { st with dirs := td0 :: st.dirs,
                      files := (td0 ++ "/" ++ basename f.name ++
                        "_unlocked") :: st.files } td0 hmem1
          rw [hres]
          refine ⟨hb.1, ?_⟩
          intro r hr
          have hr2 := hb.2 r hr
          refine ⟨hr2.1, ⟨e, hr2.2.1⟩, ?_⟩
          intro td htd htd'
          injection htd with htd
          subst htd
          exact hr2.2.2 htd'
        | ok u =>
          exfalso
          simp [unlockFailed, isErr, hmk, hname, hpdf, hwr] at h

end PdfUnlock

namespace PdfUnlock

/-- Witness for the amended C6: a worker run whose PDF parse raises,
with a non-raising rmtree, returns (no exception) and the returned
outcome has no path and a clean staging directory. -/
theorem unlock_failure_cleanup_spot :
    isErr (remove_pdf_restrictions ⟨Except.ok "/tmp/s",
        Except.error "bad pdf", Except.ok (), Except.ok (), 5⟩
        ⟨true, "/up/doc.pdf", Except.ok 9⟩ ⟨["/up/doc.pdf"], [], []⟩)
      = false ∧
    "/tmp/s" ∉ (⟨["/up/doc.pdf"], [], []⟩ : SysState).dirs :=
  have h := unlock_failure_cleanup
    ⟨Except.ok "/tmp/s", Except.error "bad pdf", Except.ok (),
      Except.ok (), 5⟩
    ⟨true, "/up/doc.pdf", Except.ok 9⟩ ⟨["/up/doc.pdf"], [], []⟩
    (by decide) rfl
  ⟨h.1, ((h.2 (⟨["/up/doc.pdf"], [], []⟩, none, "❌ 处理失败: bad pdf")
      (by decide)).2.2 "/tmp/s" rfl (by decide)).1⟩

lemma unlockFail_path_none (rm : Except String Unit)
    (tdOpt : Option String) (e : String) (st : SysState) :
    ∀ r, unlockFail rm tdOpt e st = Except.ok r → r.2.1 = none := by
  intro r hr
  cases tdOpt with
  | none =>
    simp only [unlockFail] at hr
    injection hr with hr
    subst hr
    rfl
  | some td =>
    simp only [unlockFail] at hr
    split at hr
    · cases rm with
      | error e2 => exact absurd hr (by simp)
      | ok u =>
        injection hr with hr
        subst hr
        rfl
    · injection hr with hr
      subst hr
      rfl

/-- C7: every non-`None` path returned by a producer of durable
artifacts is registered at the moment of return: whenever the unlock
worker returns (rather than raises) with a non-`None` `output_path`,
that path is a key of the registry (with the creation timestamp `now`)
in the returned state, and likewise for a successful archive build's
ZIP path. -/
theorem returned_path_registered :
    (∀ (env : UnlockEnv) (f : Candidate) (st : SysState)
        (r : SysState × Option String × String) (p : String),
        remove_pdf_restrictions env f st = Except.ok r →
        r.2.1 = some p → (p, env.now) ∈ r.1.reg) ∧
    (∀ (env : ZipEnv) (inputs : List String) (st : SysState) (p : String),
        (create_zip_file env inputs st).path = some p →
        (p, env.now) ∈ (create_zip_file env inputs st).st.reg) := by
  constructor
  · intro env f st r p hr hp
    cases hmk : env.mkdtempResult with
    | error e =>
      rw [remove_pdf_restrictions, hmk] at hr
      rw [unlockFail_path_none env.rmtreeOk none e st r hr] at hp
      exact absurd hp (by simp)
    | ok td =>
      cases hname : f.hasName with
      | false =>
        have hr2 : unlockFail env.rmtreeOk (some td)
            "object has no attribute name"
            { st with dirs := td :: st.dirs } = Except.ok r := by
          rw [← hr]
          simp [remove_pdf_restrictions, hmk, hname]
        rw [unlockFail_path_none env.rmtreeOk (some td) _ _ r hr2] at hp
        exact absurd hp (by simp)
      | true =>
        cases hpdf : env.pdfPages with
        | error e =>
          have hr2 : unlockFail env.rmtreeOk (some td) e
              { st with dirs := td :: st.dirs } = Except.ok r := by
            rw [← hr]
            simp [remove_pdf_restrictions, hmk, hname, hpdf]
          rw [unlockFail_path_none env.rmtreeOk (some td) _ _ r hr2] at hp
          exact absurd hp (by simp)
        | ok n =>
          cases hwr : env.writeOk with
          | error e =>
            have hr2 : unlockFail env.rmtreeOk (some td) e
                { st with dirs := td :: st.dirs,
                          files := (td ++ "/" ++ basename f.name ++
                            "_unlocked") :: st.files } = Except.ok r := by
              rw [← hr]
              simp [remove_pdf_restrictions, hmk, hname, hpdf, hwr]
            rw [unlockFail_path_none env.rmtreeOk (some td) _ _ r hr2] at hp
            exact absurd hp (by simp)
          | ok u =>
            simp only [remove_pdf_restrictions, hmk, hname, hpdf, hwr] at hr
            injection hr with hr
            subst hr
            simp at hp
            rw [← hp]
            simp [insertReg]
  · intro env inputs st p hp
    by_cases hin : inputs.isEmpty
    · simp [create_zip_file, hin] at hp
    · cases hop : env.openOk with
      | error e => simp [create_zip_file, hin, hop] at hp
      | ok u =>
        cases hwr : env.writesOk with
        | error e => simp [create_zip_file, hin, hop, hwr] at hp
        | ok v =>
          simp only [create_zip_file, hin, hop, hwr] at hp ⊢
          simp at hp
          rw [← hp]
          simp [insertReg]

/-- Witness for C7: the concrete successful unlock (its returned `.ok`
state) and the concrete archive build both leave their returned paths
registered. -/
theorem returned_path_registered_spot :
    ("/tmp/stage1/doc.pdf_unlocked", 100) ∈
      (⟨["/tmp/stage1/doc.pdf_unlocked"], ["/tmp/stage1"],
        [("/tmp/stage1/doc.pdf_unlocked", 100)]⟩ : SysState).reg ∧
    ("/tmp/20250101_000000_unlocked_pdfs.zip", 200) ∈
      (create_zip_file ⟨"20250101_000000", "/tmp", Except.ok (),
          Except.ok (), 200⟩ ["/a/x.pdf"]
          ⟨["/a/x.pdf"], [], []⟩).st.reg :=
  ⟨returned_path_registered.1 ⟨Except.ok "/tmp/stage1", Except.ok 3,
      Except.ok (), Except.ok (), 100⟩ ⟨true, "/up/doc.pdf", Except.ok 55⟩
      ⟨[], [], []⟩
      (⟨["/tmp/stage1/doc.pdf_unlocked"], ["/tmp/stage1"],
          [("/tmp/stage1/doc.pdf_unlocked", 100)]⟩,
        some "/tmp/stage1/doc.pdf_unlocked", "✅ 成功解锁文件: doc.pdf")
      "/tmp/stage1/doc.pdf_unlocked" rfl rfl,
   returned_path_registered.2 ⟨"20250101_000000", "/tmp", Except.ok (),
      Except.ok (), 200⟩ ["/a/x.pdf"] ⟨["/a/x.pdf"], [], []⟩
      "/tmp/20250101_000000_unlocked_pdfs.zip" (by decide)⟩

lemma zipWriteLoop_eq (st : SysState) (l : List String) :
    zipWriteLoop st l = (l.filter (fun p => pathExists st p)).map basename := by
  induction l with
  | nil => rfl
  | cons f l ih =>
    by_cases h : pathExists st f = true
    · simp [zipWriteLoop, List.filter_cons, h, ih]
    · simp [zipWriteLoop, List.filter_cons, h, ih]

/-- C8: `create_zip_file` on an empty list returns no path with the
"nothing to archive" message ("没有可下载的文件"); on a non-empty list with
no I/O failure it creates exactly one archive, whose entries are the
base names of exactly the input paths that exist on disk at
archive-build time; and any I/O failure during construction is caught
and reported with no path (and no archive) returned, never raising to
the caller. -/
theorem create_zip_archive_contract (env : ZipEnv) (inputs : List String)
    (st : SysState) :
    (inputs = [] →
       create_zip_file env inputs st = ⟨st, none, "没有可下载的文件", none⟩) ∧
    (inputs ≠ [] → (isErr env.openOk || isErr env.writesOk) = true →
       (create_zip_file env inputs st).path = none ∧
       (create_zip_file env inputs st).entries = none ∧
       ∃ e, (create_zip_file env inputs st).msg = "❌ 创建ZIP文件失败: " ++ e) ∧
    (inputs ≠ [] → env.openOk = Except.ok () → env.writesOk = Except.ok () →
       (create_zip_file env inputs st).path =
         some (env.tmpdir ++ "/" ++ env.timestamp ++ "_unlocked_pdfs.zip") ∧
       (create_zip_file env inputs st).entries =
         some ((inputs.filter (fun p => pathExists
             { st with files := (env.tmpdir ++ "/" ++ env.timestamp ++
                 "_unlocked_pdfs.zip") :: st.files } p)).map basename)) := by
  refine ⟨?_, ?_, ?_⟩
  · intro he
    subst he
    rfl
  · intro hne hio
    have hin : inputs.isEmpty = false := by
      cases inputs
      · exact absurd rfl hne
      · rfl
    cases hop : env.openOk with
    | error e => exact ⟨by simp [create_zip_file, hin, hop],
        by simp [create_zip_file, hin, hop],
        e, by simp [create_zip_file, hin, hop]⟩
    | ok u =>
      cases hwr : env.writesOk with
      | error e => exact ⟨by simp [create_zip_file, hin, hop, hwr],
          by simp [create_zip_file, hin, hop, hwr],
          e, by simp [create_zip_file, hin, hop, hwr]⟩
      | ok v =>
        exfalso
        rw [hop, hwr] at hio
        simp [isErr] at hio
  · intro hne hop hwr
    have hin : inputs.isEmpty = false := by
      cases inputs
      · exact absurd rfl hne
      · rfl
    constructor
    · simp [create_zip_file, hin, hop, hwr, String.append_assoc]
    · simp [create_zip_file, hin, hop, hwr, zipWriteLoop_eq,
        String.append_assoc]

/-- Witness for C8: three existing unlocked files produce one archive
with exactly their three base names as entries. -/
theorem create_zip_archive_contract_spot :
    (create_zip_file ⟨"20250101_000000", "/tmp", Except.ok (),
        Except.ok (), 200⟩ ["/a/x.pdf", "/a/y.pdf", "/b/z.pdf"]
        ⟨["/a/x.pdf", "/a/y.pdf", "/b/z.pdf"], [], []⟩).entries
      = some ["x.pdf", "y.pdf", "z.pdf"] :=
  (((create_zip_archive_contract ⟨"20250101_000000", "/tmp", Except.ok (),
      Except.ok (), 200⟩ ["/a/x.pdf", "/a/y.pdf", "/b/z.pdf"]
      ⟨["/a/x.pdf", "/a/y.pdf", "/b/z.pdf"], [], []⟩).2.2
      (by decide) rfl rfl).2).trans (by decide)

lemma pool_running_invariant (max : Nat) {s s' : PoolState}
    (h : Relation.ReflTransGen (PoolStep max) s s')
    (hs : s.running ≤ max) : s'.running ≤ max := by
  induction h with
  | refl => exact hs
  | tail h1 h2 ih =>
    cases h2 with
    | start q r f hr => exact hr
    | finish q r f => exact Nat.le_of_succ_le ih

/-- C9: for every batch size `n` (in particular any
`n ≤ 10 * MAX_CONCURRENT_TASKS`), every pool state reachable from the
state with `n` submitted tasks under the
`ThreadPoolExecutor(max_workers=MAX_CONCURRENT_TASKS)` scheduling steps
has at most `MAX_CONCURRENT_TASKS` (= 10) tasks running: the bound is a
hard cap and excess submissions stay queued. -/
theorem pool_never_exceeds_cap (n : Nat) (s : PoolState)
    (hn : n ≤ 10 * MAX_CONCURRENT_TASKS)
    (h : PoolReachable MAX_CONCURRENT_TASKS (poolInit n) s) :
    s.running ≤ MAX_CONCURRENT_TASKS :=
  pool_running_invariant MAX_CONCURRENT_TASKS h (Nat.zero_le _)

/-- Witness for C9: after one task of a 3-task batch starts, one task is
running, within the cap. -/
theorem pool_never_exceeds_cap_spot :
    (⟨2, 1, 0⟩ : PoolState).running ≤ MAX_CONCURRENT_TASKS :=
  pool_never_exceeds_cap 3 ⟨2, 1, 0⟩ (by decide)
    (Relation.ReflTransGen.single (PoolStep.start 2 0 0 (by decide)))

end PdfUnlock
